import Mathlib

/-!
Verification of the GoAhead multipart upload filter (`src/upload.c`).

The embedding models bytes as `Char` lists. The functions of `upload.c`
(`websProcessUploadData`, `processContentBoundary`, `processUploadHeader`,
`processContentData`, `getBoundary`, `writeToFile`, `defineUploadVars`) are
translated directly from the source. Collaborator routines that the source
calls but whose code is not under `src/` (the `gtok`/`gtrim`/`gcaselesscmp`
string helpers, the `ringq` byte queue, the `sym` table, `websSetVar`,
`websError`, `tempnam`/`gopen`/`gwrite`/`gclose`) are modelled from the spec
and from their conventional C semantics, as noted on each definition.
The ring queue is modelled as the list of currently buffered bytes; the
temporary-file system is modelled as the byte list written through the open
handle plus a list of closed files.
-/

namespace GoAheadUpload

/-- The NUL byte, which terminates C strings. -/
def nulChar : Char := Char.ofNat 0

/-- Upload state `HTTP_UPLOAD_REQUEST_HEADER` from upload.c. -/
def HTTP_UPLOAD_REQUEST_HEADER : Nat := 1

/-- Upload state `HTTP_UPLOAD_BOUNDARY` from upload.c. -/
def HTTP_UPLOAD_BOUNDARY : Nat := 2

/-- Upload state `HTTP_UPLOAD_CONTENT_HEADER` from upload.c. -/
def HTTP_UPLOAD_CONTENT_HEADER : Nat := 3

/-- Upload state `HTTP_UPLOAD_CONTENT_DATA` from upload.c. -/
def HTTP_UPLOAD_CONTENT_DATA : Nat := 4

/-- Upload state `HTTP_UPLOAD_CONTENT_END` from upload.c. -/
def HTTP_UPLOAD_CONTENT_END : Nat := 5

/-- HTTP status used by `websError` for protocol errors. -/
def HTTP_CODE_BAD_REQUEST : Nat := 400

/-- HTTP status used by `websError` when the upload limit is exceeded. -/
def HTTP_CODE_REQUEST_TOO_LARGE : Nat := 413

/-- First index of a delimiter byte in a C string, stopping at the NUL
    terminator (models `strpbrk`; `none` when no delimiter precedes it). -/
def brkIdx (delims : List Char) : List Char → Option Nat
  | [] => none
  | c :: rest =>
    if c = nulChar then none
    else if c ∈ delims then some 0
    else (brkIdx delims rest).map (· + 1)

/-- Length of the longest delimiter-only prefix of a byte list
    (models `strspn`; NUL is never a delimiter here, so it stops there too). -/
def spanIdx (delims : List Char) (l : List Char) : Nat :=
  (l.takeWhile (fun c => decide (c ∈ delims))).length

/-- Bytes of a C string up to its NUL terminator (or the end of the buffer). -/
def cstrTake (l : List Char) : List Char :=
  l.takeWhile (fun c => decide (c ≠ nulChar))

/-- Modelled from the spec: `gtok`, the repository's strtok-style tokenizer,
    is called by upload.c but its source is not under `src/`. It skips leading
    delimiter bytes, NUL-terminates the token at the next delimiter, skips the
    following run of delimiters, and returns NULL when no token remains.
    `gtokSplit` returns the string visible from the caller's original pointer
    after this mutation, together with the `last` out-pointer (`none` models a
    NULL `last`); the whole result is `none` when `gtok` itself returns NULL. -/
def gtokSplit (delims : List Char) (s : List Char) :
    Option (List Char × Option (List Char)) :=
  let i := spanIdx delims s
  let start := s.drop i
  match start.head? with
  | none => none
  | some c =>
    if c = nulChar then none
    else
      match brkIdx delims start with
      | none => some (cstrTake s, none)
      | some k =>
        let after := start.drop (k + 1)
        let j := spanIdx delims after
        some (s.take (i + k), some (after.drop j))

/-- Modelled from the spec: the shape of a `gtok` call whose caller keeps its
    original pointer and only inspects the visible token and the rest pointer
    (such as `gtok(line, ": ", &rest)` in `processUploadHeader`). -/
def gtokSplit2 (delims : List Char) (s : List Char) :
    List Char × Option (List Char) :=
  (gtokSplit delims s).getD (cstrTake s, none)

/-- Modelled from the spec: the line-extraction step of
    `websProcessUploadData` (`gtok(line, "\n", &nextTok)` on the buffered
    bytes). Returns the extracted line as seen from the buffer start together
    with the number of consumed bytes (`nextTok - line`), or `none` when no
    complete line is buffered (`nextTok == 0`). -/
def gtokLine (buf : List Char) : Option (List Char × Nat) :=
  let i := spanIdx ['\n'] buf
  let start := buf.drop i
  match start.head? with
  | none => none
  | some c =>
    if c = nulChar then none
    else
      match brkIdx ['\n'] start with
      | none => none
      | some k =>
        let j := spanIdx ['\n'] (start.drop (k + 1))
        some (buf.take (i + k), i + k + 1 + j)

/-- Trailing-CR stripping step of `websProcessUploadData`
    (`if (line[len - 1] == '\r') line[len - 1] = '\0';`). -/
def stripCR (line : List Char) : List Char :=
  if line.getLast? = some '\r' then line.dropLast else line

/-- Modelled from the spec: `gtrim(str, set, WEBS_TRIM_BOTH)` removes bytes
    of `set` from both ends of the string. -/
def gtrim (set : List Char) (s : List Char) : List Char :=
  ((s.dropWhile (fun c => decide (c ∈ set))).reverse.dropWhile
    (fun c => decide (c ∈ set))).reverse

/-- Modelled from the spec: `gcaselesscmp` compares two strings
    case-insensitively; this is the equality test `gcaselesscmp(a, b) == 0`. -/
def gcaselesscmp (a b : List Char) : Bool :=
  decide (a.map Char.toLower = b.map Char.toLower)

/-- Per-part file record `WebsUploadFile` from upload.c. Optional fields are
    NULL-able C strings; `galloc` is modelled as zero-initializing. -/
structure UploadFile where
  clientFilename : Option (List Char)
  filename : List Char
  contentType : Option (List Char)
  size : Nat
deriving DecidableEq, Repr

/-- The slice of the `Webs` request object that upload.c reads and writes.
    `input` is the content of the `ringq` input buffer (`servp` to `endp`);
    `ufdOpen`/`ufdData` model the open temp-file descriptor and the bytes
    written through it; `disk` collects closed files as (path, contents);
    `error` records the HTTP code of a `websError` call. -/
structure Webs where
  uploadState : Nat
  boundary : List Char
  input : List Char
  id : Option (List Char)
  clientFilename : Option (List Char)
  tmpPath : Option (List Char)
  tmpCounter : Nat
  ufdOpen : Bool
  ufdData : List Char
  currentFile : Option UploadFile
  files : List (List Char × UploadFile)
  vars : List (List Char × List Char)
  disk : List (List Char × List Char)
  error : Option Nat
deriving DecidableEq, Repr

/-- Modelled from the spec: `websSetVar` stores a string variable in the
    request's ordered string map, overwriting the value when the key already
    exists and appending otherwise. -/
def setVar (vars : List (List Char × List Char)) (k v : List Char) :
    List (List Char × List Char) :=
  match vars with
  | [] => [(k, v)]
  | (k', v') :: rest =>
    if k' = k then (k', v) :: rest else (k', v') :: setVar rest k v

/-- Lookup in the ordered string map of request variables. -/
def lookupVar (vars : List (List Char × List Char)) (k : List Char) :
    Option (List Char) :=
  match vars with
  | [] => none
  | (k', v') :: rest => if k' = k then some v' else lookupVar rest k

/-- Modelled from the spec: `symEnter(wp->files, id, value, 0)` stores the
    completed file record into the request's file table keyed by the field id,
    overwriting an existing entry for the same id. -/
def symEnter (tab : List (List Char × UploadFile)) (k : List Char)
    (f : UploadFile) : List (List Char × UploadFile) :=
  match tab with
  | [] => [(k, f)]
  | (k', f') :: rest =>
    if k' = k then (k', f) :: rest else (k', f') :: symEnter rest k f

/-- Modelled from the spec: `tempnam(uploadDir, "tmp")` produces a fresh
    server-chosen temp path; freshness is modelled with a per-session counter. -/
def tmpName (n : Nat) : List Char :=
  "tmp".data ++ (Nat.repr n).data

/-- Inner scan of `getBoundary`: the `memchr` prefilter for the marker's first
    byte followed by the full `memcmp` verification, left to right over the
    candidate positions (`cand` counts the remaining candidates, i.e. the
    positions up to `endp`); `i` is the absolute index of the list head. -/
def gbScan (bnd : List Char) (first : Char) :
    List Char → Nat → Nat → Option Nat
  | _, 0, _ => none
  | [], _ + 1, _ => none
  | c :: rest, cand + 1, i =>
    if c = first ∧ bnd.isPrefixOf (c :: rest) then some i
    else gbScan bnd first rest cand (i + 1)

/-- `getBoundary` from upload.c: find the boundary marker in the buffered
    window, returning the offset of the first match from the window start.
    Windows shorter than the marker report no match. The empty-marker case is
    unreachable: `websUploadHandler` rejects an empty boundary up front. -/
def getBoundary (bnd : List Char) (buf : List Char) : Option Nat :=
  match bnd with
  | [] => none
  | first :: _ =>
    if buf.length < bnd.length then none
    else gbScan bnd first buf (buf.length - bnd.length + 1) 0

/-- `writeToFile` from upload.c: reject the write with
    `HTTP_CODE_REQUEST_TOO_LARGE` when the part's accumulated size plus the
    pending length would exceed the ceiling `BIT_LIMIT_UPLOAD` (`limit`);
    otherwise append the bytes and bump the size counter. `gwrite` is modelled
    from the spec as a synchronous write that succeeds. -/
def writeToFile (limit : Nat) (s : Webs) (data : List Char) : Webs :=
  match s.currentFile with
  | none => s
  | some f =>
    if limit < f.size + data.length then
      { s with error := some HTTP_CODE_REQUEST_TOO_LARGE }
    else if 0 < data.length then
      { s with currentFile := some { f with size := f.size + data.length },
               ufdData := s.ufdData ++ data }
    else s

/-- Key `FILE_CLIENT_FILENAME_<id>` built by `defineUploadVars`. -/
def fileClientKey (i : List Char) : List Char :=
  "FILE_CLIENT_FILENAME_".data ++ i

/-- Key `FILE_CONTENT_TYPE_<id>` built by `defineUploadVars`. -/
def fileTypeKey (i : List Char) : List Char :=
  "FILE_CONTENT_TYPE_".data ++ i

/-- Key `FILE_FILENAME_<id>` built by `defineUploadVars`. -/
def fileNameKey (i : List Char) : List Char :=
  "FILE_FILENAME_".data ++ i

/-- Key `FILE_SIZE_<id>` built by `defineUploadVars`. -/
def fileSizeKey (i : List Char) : List Char :=
  "FILE_SIZE_".data ++ i

/-- `defineUploadVars` from upload.c: publish the four per-file variables for
    the current file part, keyed by the field id. `gfmtStatic` and `gstritoa`
    are modelled from the spec as plain concatenation and decimal rendering;
    NULL-able string fields publish as the empty string. -/
def defineUploadVars (s : Webs) : Webs :=
  match s.currentFile with
  | none => s
  | some f =>
    let i := s.id.getD []
    let v1 := setVar s.vars (fileClientKey i) (f.clientFilename.getD [])
    let v2 := setVar v1 (fileTypeKey i) (f.contentType.getD [])
    let v3 := setVar v2 (fileNameKey i) f.filename
    let v4 := setVar v3 (fileSizeKey i) (Nat.repr f.size).data
    { s with vars := v4 }

/-- `processContentBoundary` from upload.c: the line must start with the
    boundary marker (`strncmp`), else `websError(HTTP_CODE_BAD_REQUEST)`; a
    remainder of exactly `--` ends the multipart message, anything else moves
    to the content-header state. -/
def processContentBoundary (s : Webs) (line : List Char) : Webs :=
  if ¬ s.boundary.isPrefixOf line then
    { s with error := some HTTP_CODE_BAD_REQUEST }
  else if line.drop s.boundary.length = ['-', '-'] then
    { s with uploadState := HTTP_UPLOAD_CONTENT_END }
  else
    { s with uploadState := HTTP_UPLOAD_CONTENT_HEADER }

/-- One `key[=value]` attribute of a Content-Disposition line, as produced by
    `gtrim`/`gtok`/`gtrim` inside the attribute loop of `processUploadHeader`:
    the trimmed key and the quote-trimmed optional value. -/
def attrParse (vis : List Char) : List Char × Option (List Char) :=
  let key1 := gtrim [' '] vis
  match gtokSplit ['=', ' '] key1 with
  | none => (key1, none)
  | some (k, v) => (k, v.map (fun x => gtrim ['"'] (cstrTake x)))

/-- The attribute loop of `processUploadHeader` over the rest of a
    Content-Disposition line (`while (key && gtok(key, ";\r\n", &nextPair))`).
    The `filename` branch models `tempnam` and `gopen` as succeeding: it
    records the fresh path, opens (and truncates) the handle and allocates the
    `WebsUploadFile` record. `fuel` bounds the iteration count; callers pass
    `key.length + 1`, which the loop never exhausts since every round consumes
    at least one byte of `key`. -/
def cdLoop (s : Webs) : Nat → Option (List Char) → Webs
  | _, none => s
  | 0, some _ => s
  | fuel + 1, some key =>
    match gtokSplit [';', '\r', '\n'] key with
    | none => s
    | some (vis, nextPair) =>
      let kv := attrParse vis
      if gcaselesscmp kv.1 "form-data".data then cdLoop s fuel nextPair
      else if gcaselesscmp kv.1 "name".data then
        cdLoop { s with id := kv.2 } fuel nextPair
      else if gcaselesscmp kv.1 "filename".data then
        if s.id = none then { s with error := some HTTP_CODE_BAD_REQUEST }
        else
          let path := tmpName s.tmpCounter
          cdLoop
            { s with clientFilename := kv.2,
                     tmpPath := some path,
                     tmpCounter := s.tmpCounter + 1,
                     ufdOpen := true,
                     ufdData := [],
                     currentFile := some { clientFilename := kv.2,
                                           filename := path,
                                           contentType := none,
                                           size := 0 } }
            fuel nextPair
      else cdLoop s fuel nextPair

/-- `processUploadHeader` from upload.c: an empty line ends the part's headers
    and moves to the data state; a `Content-Disposition` line resets the field
    id and client filename and runs the attribute loop; a `Content-Type` line
    attaches the declared type to the current file part when one is open. -/
def processUploadHeader (s : Webs) (line : List Char) : Webs :=
  if line = [] then { s with uploadState := HTTP_UPLOAD_CONTENT_DATA }
  else
    let hr := gtokSplit2 [':', ' '] line
    if gcaselesscmp hr.1 "Content-Disposition".data then
      cdLoop { s with id := none, clientFilename := none }
        ((hr.2.getD []).length + 1) hr.2
    else if gcaselesscmp hr.1 "Content-Type".data then
      if s.clientFilename.isSome then
        match s.currentFile with
        | some f => { s with currentFile := some { f with contentType := hr.2.map cstrTake } }
        | none => s
      else s
    else s

/-- The CRLF adjustment of `processContentData`
    (`dataLen >= 2 && data[dataLen - 2] == '\r' && data[dataLen - 1] == '\n'`):
    2 when the consumed slice ends in CRLF, else 0. -/
def crlfAdj (data : List Char) : Nat :=
  if 2 ≤ data.length ∧ data.get? (data.length - 2) = some '\r' ∧
      data.get? (data.length - 1) = some '\n' then 2 else 0

/-- The part-completion epilogue of `processContentData` (lines 356-365):
    close the temp handle and clear `clientFilename` when a file part was
    streaming, then return to the boundary state. `currentFile` is left as it
    was. -/
def closePart (s : Webs) : Webs :=
  let s1 :=
    if s.clientFilename.isSome then
      { s with ufdOpen := false,
               disk := s.disk ++ [(s.tmpPath.getD [], s.ufdData)],
               ufdData := [],
               clientFilename := none }
    else s
  { s1 with uploadState := HTTP_UPLOAD_BOUNDARY }

/-- The tail of `processContentData` from line 321 on, reached with the
    boundary position `bp` (`none` models a NULL `bp`, possible only for a
    non-file part): consume up to the boundary (or everything), drop a
    trailing CRLF, then either write the final file bytes and publish the
    file's variables, or publish the plain field, and finish the part.
    On a `writeToFile` failure the function returns -1 at once, leaving the
    handle open and the state unchanged. (The `data[dataLen] = '\0'`
    terminator the C code writes for a plain field lands in already-consumed
    bytes or in the ring buffer's spare slot for CRLF-framed bodies, so the
    buffered bytes it would clobber are not modelled.) -/
def contentDataTail (limit : Nat) (s : Webs) (bp : Option Nat) : Webs :=
  let content := s.input
  let dataLen0 := match bp with | some p => p | none => content.length
  let data := content.take dataLen0
  if 0 < dataLen0 then
    let sA := { s with input := content.drop dataLen0 }
    let dataLen := dataLen0 - crlfAdj data
    if sA.clientFilename.isSome then
      let sB := writeToFile limit sA (data.take dataLen)
      if sB.error.isSome then sB
      else
        let sC :=
          match sB.currentFile with
          | some f => { sB with files := symEnter sB.files (sB.id.getD []) f }
          | none => sB
        closePart (defineUploadVars sC)
    else
      closePart { sA with vars := setVar sA.vars (sA.id.getD []) (data.take dataLen) }
  else closePart s

/-- `processContentData` from upload.c: wait for at least `boundaryLen`
    buffered bytes; when the scanner finds no boundary and a file part is
    streaming, flush all but the last `boundaryLen - 1` bytes to the temp file
    and keep those back for re-examination; otherwise fall through to the
    common completion path with the scan result. -/
def processContentData (limit : Nat) (s : Webs) : Webs :=
  let content := s.input
  let size := content.length
  if size < s.boundary.length then s
  else
    match getBoundary s.boundary content with
    | none =>
      if s.clientFilename.isSome then
        let dataLen := size - (s.boundary.length - 1)
        let s1 := if 0 < dataLen then writeToFile limit s (content.take dataLen) else s
        if s1.error.isSome then s1
        else { s1 with input := s1.input.drop dataLen }
      else contentDataTail limit s none
    | some p => contentDataTail limit s (some p)

/-- One pass of the driver loop of `websProcessUploadData`: extract a line in
    the line-oriented states and dispatch on the state; the Bool is `false`
    when the loop sets `done` (incomplete line, handler error, fewer than
    `boundaryLen` bytes left after content data, or the end state). -/
def stepWebs (limit : Nat) (s : Webs) : Webs × Bool :=
  if s.uploadState = HTTP_UPLOAD_BOUNDARY ∨
      s.uploadState = HTTP_UPLOAD_CONTENT_HEADER then
    match gtokLine s.input with
    | none => (s, false)
    | some (line0, consumed) =>
      let s1 := { s with input := s.input.drop consumed }
      let line := stripCR line0
      if s.uploadState = HTTP_UPLOAD_BOUNDARY then
        let s2 := processContentBoundary s1 line
        (s2, s2.error.isNone)
      else
        let s2 := processUploadHeader s1 line
        (s2, s2.error.isNone)
  else if s.uploadState = HTTP_UPLOAD_CONTENT_DATA then
    let s2 := processContentData limit s
    if s2.error.isSome then (s2, false)
    else if s2.input.length < s2.boundary.length then (s2, false)
    else (s2, true)
  else (s, false)

/-- The `for (done = 0; !done; )` loop of `websProcessUploadData`, with a fuel
    bound on the iteration count. Each continuing pass either consumes at
    least one buffered byte or moves from the data state to the boundary
    state, so `2 * |input| + 2` passes always suffice. -/
def loopUpload (limit : Nat) : Nat → Webs → Webs
  | 0, s => s
  | fuel + 1, s =>
    match stepWebs limit s with
    | (s', true) => loopUpload limit fuel s'
    | (s', false) => s'

/-- `websProcessUploadData` from upload.c: run the driver loop on the
    buffered input (`ringqCompact` only reclaims space and is a no-op here). -/
def websProcessUploadData (limit : Nat) (s : Webs) : Webs :=
  loopUpload limit (2 * s.input.length + 2) s

/-- The session state right after `websUploadHandler` accepted the request:
    boundary marker set (`--` ++ token, validated non-empty), `UPLOAD_DIR`
    published, everything else empty. -/
def initWebs (uploadDir bnd : List Char) : Webs :=
  { uploadState := HTTP_UPLOAD_BOUNDARY,
    boundary := bnd,
    input := [],
    id := none,
    clientFilename := none,
    tmpPath := none,
    tmpCounter := 0,
    ufdOpen := false,
    ufdData := [],
    currentFile := none,
    files := [],
    vars := [("UPLOAD_DIR".data, uploadDir)],
    disk := [],
    error := none }

/-- Delivery of one chunk of body bytes: the connection layer appends the
    newly received bytes to the input buffer and re-enters
    `websProcessUploadData`; a request already failed by `websError` is not
    re-entered. -/
def feed (limit : Nat) (s : Webs) (chunk : List Char) : Webs :=
  if s.error.isSome then s
  else websProcessUploadData limit { s with input := s.input ++ chunk }

/-- A whole upload session: the initial state fed the body chunks in order. -/
def runUpload (limit : Nat) (uploadDir bnd : List Char)
    (chunks : List (List Char)) : Webs :=
  chunks.foldl (feed limit) (initWebs uploadDir bnd)

/-- Decision procedure for the shape "a `filename` attribute appears in the
    attribute list with no `name` attribute before it", following the same
    tokenization as `cdLoop`. -/
def hasFilenameBeforeName : Nat → Option (List Char) → Bool
  | _, none => false
  | 0, some _ => false
  | fuel + 1, some key =>
    match gtokSplit [';', '\r', '\n'] key with
    | none => false
    | some (vis, nextPair) =>
      let kv := attrParse vis
      if gcaselesscmp kv.1 "filename".data then true
      else if gcaselesscmp kv.1 "name".data then false
      else hasFilenameBeforeName fuel nextPair

/-- Example upload directory used by the concrete sessions below. -/
def exDir : List Char := "/tmp".data

/-- Example boundary marker `--X` (Content-Type announced `boundary=X`). -/
def exBnd : List Char := "--X".data

/-- Example valid body carrying one plain form field `a` = `hello`. -/
def exFormBody : List Char :=
  ("--X\r\nContent-Disposition: form-data; name=\"a\"\r\n\r\nhello\r\n--X--\r\n").data

/-- Example valid body carrying one file field `f` (payload `hi`). -/
def exFileBody : List Char :=
  ("--X\r\nContent-Disposition: form-data; name=\"f\"; filename=\"x.txt\"\r\nContent-Type: text/plain\r\n\r\nhi\r\n--X--\r\n").data

/-- Example body prefix that stops in the middle of a file part's data. -/
def exOpenBody : List Char :=
  ("--X\r\nContent-Disposition: form-data; name=\"f\"; filename=\"y\"\r\n\r\nabcdef").data

/-- Freshly opened file record for the sessions below. -/
def exFile : UploadFile :=
  { clientFilename := some "y".data, filename := "tmp0".data,
    contentType := none, size := 0 }

/-- Session state streaming the file part `f`, with `abcdef` buffered and no
    boundary in sight. -/
def exStreamState : Webs :=
  { uploadState := HTTP_UPLOAD_CONTENT_DATA,
    boundary := exBnd,
    input := "abcdef".data,
    id := some "f".data,
    clientFilename := some "y".data,
    tmpPath := some "tmp0".data,
    tmpCounter := 1,
    ufdOpen := true,
    ufdData := [],
    currentFile := some exFile,
    files := [],
    vars := [("UPLOAD_DIR".data, exDir)],
    disk := [],
    error := none }

/-- Same session at the moment the closing boundary is fully buffered. -/
def exFinishState : Webs :=
  { exStreamState with input := "hi\r\n--X--\r\n".data }

/-- Session state streaming a plain (non-file) field `a`, with `hello`
    buffered and no boundary in sight. -/
def exDataState : Webs :=
  { uploadState := HTTP_UPLOAD_CONTENT_DATA,
    boundary := exBnd,
    input := "hello".data,
    id := some "a".data,
    clientFilename := none,
    tmpPath := none,
    tmpCounter := 0,
    ufdOpen := false,
    ufdData := [],
    currentFile := none,
    files := [],
    vars := [("UPLOAD_DIR".data, exDir)],
    disk := [],
    error := none }

lemma spanIdx_zero_head (d : List Char) (c : Char) (rest : List Char)
    (h : spanIdx d (c :: rest) = 0) : c ∉ d := by
  intro hc
  simp [spanIdx, List.takeWhile_cons, hc] at h

lemma brkIdx_cons_ge_one (d : List Char) (c : Char) (rest : List Char) (k : Nat)
    (hnul : ¬ c = nulChar) (hd : c ∉ d)
    (h : brkIdx d (c :: rest) = some k) : 1 ≤ k := by
  simp only [brkIdx, if_neg hnul, if_neg hd, Option.map_eq_some'] at h
  obtain ⟨k', _, hk⟩ := h
  omega

lemma isPrefixOf_length_le :
    ∀ (a b : List Char), a.isPrefixOf b = true → a.length ≤ b.length := by
  intro a
  induction a with
  | nil => intro b _; simp
  | cons x xs ih =>
    intro b h
    cases b with
    | nil => simp [List.isPrefixOf] at h
    | cons y ys =>
      simp only [List.isPrefixOf, Bool.and_eq_true] at h
      have := ih ys h.2
      simp only [List.length_cons]
      omega

lemma prefix_head_eq {x y : Char} {xs ys : List Char}
    (h : (x :: xs).isPrefixOf (y :: ys) = true) : x = y := by
  simp only [List.isPrefixOf, Bool.and_eq_true, beq_iff_eq] at h
  exact h.1

lemma lookupVar_setVar_self (vars : List (List Char × List Char))
    (k v : List Char) : lookupVar (setVar vars k v) k = some v := by
  induction vars with
  | nil => simp [setVar, lookupVar]
  | cons p rest ih =>
    obtain ⟨k', v'⟩ := p
    by_cases hk : k' = k
    · simp [setVar, lookupVar, hk]
    · simp [setVar, lookupVar, hk, ih]

lemma lookupVar_setVar_other (vars : List (List Char × List Char))
    (k v k' : List Char) (hne : k' ≠ k) :
    lookupVar (setVar vars k v) k' = lookupVar vars k' := by
  have hne' : ¬ k = k' := fun h => hne h.symm
  induction vars with
  | nil => simp [setVar, lookupVar, hne']
  | cons p rest ih =>
    obtain ⟨k'', v''⟩ := p
    by_cases hk : k'' = k
    · subst hk
      simp [setVar, lookupVar, hne']
    · by_cases hk' : k'' = k'
      · simp [setVar, lookupVar, hk, hk', hne, hne']
      · simp [setVar, lookupVar, hk, hk', ih]

lemma append_ne_of_length_ne (p q i : List Char) (h : p.length ≠ q.length) :
    p ++ i ≠ q ++ i := by
  intro he
  apply h
  have hl := congrArg List.length he
  simp only [List.length_append] at hl
  omega

lemma fileKeys_distinct (i : List Char) :
    fileClientKey i ≠ fileTypeKey i ∧ fileClientKey i ≠ fileNameKey i ∧
    fileClientKey i ≠ fileSizeKey i ∧ fileTypeKey i ≠ fileNameKey i ∧
    fileTypeKey i ≠ fileSizeKey i ∧ fileNameKey i ≠ fileSizeKey i := by
  refine ⟨?_, ?_, ?_, ?_, ?_, ?_⟩ <;>
    exact append_ne_of_length_ne _ _ i (by decide)

lemma gcaselesscmp_false_of_ne (k a b : List Char)
    (hab : a.map Char.toLower ≠ b.map Char.toLower)
    (ha : gcaselesscmp k a = true) : ¬ gcaselesscmp k b = true := by
  simp only [gcaselesscmp, decide_eq_true_eq] at ha ⊢
  intro hb
  exact hab (ha ▸ hb)

/-- C10: every line the driver loop of `websProcessUploadData` hands to the
    trailing-CR stripping step is non-empty, so the access at index
    `len - 1` never reads before the start of the line — a buffered bare
    `"\n"` is absorbed as a leading delimiter by `gtok` and never yields an
    empty line. -/
theorem c10_line_nonempty (buf line : List Char) (n : Nat)
    (h : gtokLine buf = some (line, n)) : 1 ≤ line.length := by
  simp only [gtokLine] at h
  rcases hh : (buf.drop (spanIdx ['\n'] buf)).head? with _ | c
  · rw [hh] at h; simp at h
  · rw [hh] at h
    by_cases hnul : c = nulChar
    · simp [hnul] at h
    · simp only [if_neg hnul] at h
      rcases hbrk : brkIdx ['\n'] (buf.drop (spanIdx ['\n'] buf)) with _ | k
      · rw [hbrk] at h; simp at h
      · rw [hbrk] at h
        simp only [Option.some.injEq, Prod.mk.injEq] at h
        obtain ⟨hline, -⟩ := h
        subst hline
        have hne : buf.drop (spanIdx ['\n'] buf) ≠ [] := by
          intro he; rw [he] at hh; simp at hh
        have hpos : 0 < (buf.drop (spanIdx ['\n'] buf)).length :=
          List.length_pos.mpr hne
        rw [List.length_drop] at hpos
        have hbl : 0 < buf.length := by omega
        rw [List.length_take]
        rcases Nat.eq_zero_or_pos (spanIdx ['\n'] buf) with hi | hi
        · -- the head is not a newline, so the first delimiter is at index ≥ 1
          rw [hi] at hh hbrk
          rw [List.drop_zero] at hh hbrk
          have hk1 : 1 ≤ k := by
            cases hbuf : buf with
            | nil => rw [hbuf] at hh; simp at hh
            | cons c0 rest =>
              rw [hbuf] at hh
              simp only [List.head?_cons, Option.some.injEq] at hh
              subst hh
              have hnd : c0 ∉ ['\n'] := by
                apply spanIdx_zero_head _ _ rest
                rw [← hbuf]
                exact hi
              rw [hbuf] at hbrk
              exact brkIdx_cons_ge_one _ _ _ _ hnul hnd hbrk
          rw [hi]
          omega
        · omega

/-- C10 witness: the concrete buffer `"ab\ncd"` yields the line `"ab"`. -/
theorem c10_line_nonempty_witness :
    gtokLine "ab\ncd".data = some ("ab".data, 3) ∧ 1 ≤ "ab".data.length :=
  ⟨by decide, c10_line_nonempty "ab\ncd".data "ab".data 3 (by decide)⟩

/-- C4: `writeToFile` rejects a write that would push the part past the
    ceiling with a payload-too-large error, appending nothing and leaving the
    size counter unchanged; otherwise it appends the bytes and the counter
    grows by exactly their length. -/
theorem c4_writeToFile_limit (limit : Nat) (s : Webs) (f : UploadFile)
    (data : List Char) (hf : s.currentFile = some f) (herr : s.error = none) :
    (limit < f.size + data.length →
      (writeToFile limit s data).error = some HTTP_CODE_REQUEST_TOO_LARGE ∧
      (writeToFile limit s data).currentFile = some f ∧
      (writeToFile limit s data).ufdData = s.ufdData) ∧
    (f.size + data.length ≤ limit →
      (writeToFile limit s data).error = none ∧
      (writeToFile limit s data).currentFile =
        some { f with size := f.size + data.length } ∧
      (writeToFile limit s data).ufdData = s.ufdData ++ data) := by
  constructor
  · intro hlt
    simp [writeToFile, hf, hlt]
  · intro hle
    have hnot : ¬ limit < f.size + data.length := by omega
    by_cases hpos : 0 < data.length
    · simp [writeToFile, hf, hnot, hpos, herr]
    · have hdata : data = [] := by
        cases data with
        | nil => rfl
        | cons a t => simp at hpos
      subst hdata
      simp only [List.length_nil, Nat.add_zero] at hnot
      simp [writeToFile, hf, herr, hnot]

/-- C4 witness: appending 3 bytes to a fresh part under a ceiling of 1000. -/
theorem c4_writeToFile_limit_witness :
    exStreamState.currentFile = some exFile ∧ exStreamState.error = none ∧
    ((1000 < exFile.size + "abc".data.length →
      (writeToFile 1000 exStreamState "abc".data).error =
        some HTTP_CODE_REQUEST_TOO_LARGE ∧
      (writeToFile 1000 exStreamState "abc".data).currentFile = some exFile ∧
      (writeToFile 1000 exStreamState "abc".data).ufdData =
        exStreamState.ufdData) ∧
    (exFile.size + "abc".data.length ≤ 1000 →
      (writeToFile 1000 exStreamState "abc".data).error = none ∧
      (writeToFile 1000 exStreamState "abc".data).currentFile =
        some { exFile with size := exFile.size + "abc".data.length } ∧
      (writeToFile 1000 exStreamState "abc".data).ufdData =
        exStreamState.ufdData ++ "abc".data)) :=
  ⟨by decide, by decide,
    c4_writeToFile_limit 1000 exStreamState exFile "abc".data
      (by decide) (by decide)⟩

/-- C6: `processContentBoundary` fails with HTTP 400 when the line does not
    start with the boundary marker; a remainder of exactly `--` moves to the
    end state, anything else to the part-header state. -/
theorem c6_boundary_line_transition (s : Webs) (line : List Char) :
    (¬ s.boundary.isPrefixOf line = true →
      (processContentBoundary s line).error = some HTTP_CODE_BAD_REQUEST) ∧
    (s.boundary.isPrefixOf line = true →
      line.drop s.boundary.length = ['-', '-'] →
      (processContentBoundary s line).uploadState = HTTP_UPLOAD_CONTENT_END ∧
      (processContentBoundary s line).error = s.error) ∧
    (s.boundary.isPrefixOf line = true →
      line.drop s.boundary.length ≠ ['-', '-'] →
      (processContentBoundary s line).uploadState =
        HTTP_UPLOAD_CONTENT_HEADER ∧
      (processContentBoundary s line).error = s.error) := by
  refine ⟨?_, ?_, ?_⟩
  · intro h1
    simp [processContentBoundary, h1]
  · intro h1 h2
    simp [processContentBoundary, h1, h2]
  · intro h1 h2
    simp [processContentBoundary, h1, h2]

/-- C6 witness: the closing line `--X--` against the marker `--X` ends the
    message without an error. -/
theorem c6_boundary_line_transition_witness :
    (processContentBoundary (initWebs exDir exBnd) "--X--".data).uploadState =
      HTTP_UPLOAD_CONTENT_END ∧
    (processContentBoundary (initWebs exDir exBnd) "--X--".data).error =
      (initWebs exDir exBnd).error :=
  (c6_boundary_line_transition (initWebs exDir exBnd) "--X--".data).2.1
    (by decide) (by decide)

/-- C8: on file-part completion `defineUploadVars` adds exactly the four
    per-file variables `FILE_CLIENT_FILENAME_<id>`, `FILE_CONTENT_TYPE_<id>`,
    `FILE_FILENAME_<id>` and `FILE_SIZE_<id>`, each keyed by the field id,
    the size rendered as a decimal string, and touches nothing else. -/
theorem c8_defineUploadVars_exact (s : Webs) (f : UploadFile) (i : List Char)
    (hf : s.currentFile = some f) (hid : s.id = some i) :
    lookupVar (defineUploadVars s).vars (fileClientKey i) =
      some (f.clientFilename.getD []) ∧
    lookupVar (defineUploadVars s).vars (fileTypeKey i) =
      some (f.contentType.getD []) ∧
    lookupVar (defineUploadVars s).vars (fileNameKey i) = some f.filename ∧
    lookupVar (defineUploadVars s).vars (fileSizeKey i) =
      some (Nat.repr f.size).data ∧
    (∀ k, k ≠ fileClientKey i → k ≠ fileTypeKey i → k ≠ fileNameKey i →
      k ≠ fileSizeKey i →
      lookupVar (defineUploadVars s).vars k = lookupVar s.vars k) ∧
    (defineUploadVars s).files = s.files ∧
    (defineUploadVars s).currentFile = s.currentFile ∧
    (defineUploadVars s).input = s.input ∧
    (defineUploadVars s).uploadState = s.uploadState ∧
    (defineUploadVars s).error = s.error ∧
    (defineUploadVars s).ufdOpen = s.ufdOpen ∧
    (defineUploadVars s).disk = s.disk := by
  obtain ⟨h12, h13, h14, h23, h24, h34⟩ := fileKeys_distinct i
  simp only [defineUploadVars, hf, hid, Option.getD_some]
  refine ⟨?_, ?_, ?_, ?_, ?_, trivial, trivial, trivial, trivial, trivial,
    trivial, trivial⟩
  · rw [lookupVar_setVar_other _ _ _ _ h14, lookupVar_setVar_other _ _ _ _ h13,
      lookupVar_setVar_other _ _ _ _ h12, lookupVar_setVar_self]
  · rw [lookupVar_setVar_other _ _ _ _ h24, lookupVar_setVar_other _ _ _ _ h23,
      lookupVar_setVar_self]
  · rw [lookupVar_setVar_other _ _ _ _ h34, lookupVar_setVar_self]
  · rw [lookupVar_setVar_self]
  · intro k hk1 hk2 hk3 hk4
    rw [lookupVar_setVar_other _ _ _ _ hk4, lookupVar_setVar_other _ _ _ _ hk3,
      lookupVar_setVar_other _ _ _ _ hk2, lookupVar_setVar_other _ _ _ _ hk1]

/-- C8 witness: completing the file part `f` publishes its size `0` under
    `FILE_SIZE_f`. -/
theorem c8_defineUploadVars_exact_witness :
    exFinishState.currentFile = some exFile ∧
    exFinishState.id = some "f".data ∧
    lookupVar (defineUploadVars exFinishState).vars (fileSizeKey "f".data) =
      some (Nat.repr exFile.size).data :=
  ⟨by decide, by decide,
    (c8_defineUploadVars_exact exFinishState exFile "f".data
      (by decide) (by decide)).2.2.2.1⟩

lemma gbScan_shift (bnd : List Char) (first : Char) :
    ∀ (l : List Char) (cand i : Nat),
      gbScan bnd first l cand i = (gbScan bnd first l cand 0).map (· + i) := by
  intro l
  induction l with
  | nil =>
    intro cand i
    cases cand <;> simp [gbScan]
  | cons c rest ih =>
    intro cand i
    cases cand with
    | zero => simp [gbScan]
    | succ m =>
      by_cases hc : c = first ∧ bnd.isPrefixOf (c :: rest) = true
      · simp only [gbScan, if_pos hc, Option.map_some', Nat.zero_add]
      · simp only [gbScan, if_neg hc, ih m (i + 1), ih m 1]
        cases gbScan bnd first rest m 0 with
        | none => simp
        | some a => simp only [Option.map_some', Option.some.injEq]; omega

lemma gbScan_spec (first : Char) (tl : List Char) :
    ∀ (l : List Char) (cand : Nat),
      (∀ r, gbScan (first :: tl) first l cand 0 = some r →
        (first :: tl).isPrefixOf (l.drop r) = true ∧ r < cand ∧
        ∀ j < r, ¬ (first :: tl).isPrefixOf (l.drop j) = true) ∧
      (gbScan (first :: tl) first l cand 0 = none →
        ∀ j < cand, ¬ (first :: tl).isPrefixOf (l.drop j) = true) := by
  intro l
  induction l with
  | nil =>
    intro cand
    constructor
    · intro r hr
      cases cand <;> simp [gbScan] at hr
    · intro _ j _
      rw [List.drop_nil]
      simp [List.isPrefixOf]
  | cons c rest ih =>
    intro cand
    cases cand with
    | zero =>
      constructor
      · intro r hr
        simp [gbScan] at hr
      · intro _ j hj
        exact absurd hj (Nat.not_lt_zero j)
    | succ m =>
      by_cases hc : c = first ∧ (first :: tl).isPrefixOf (c :: rest) = true
      · constructor
        · intro r hr
          simp only [gbScan, if_pos hc] at hr
          have hr0 : r = 0 := by simpa using hr.symm
          subst hr0
          refine ⟨by simpa using hc.2, Nat.succ_pos m, ?_⟩
          intro j hj
          exact absurd hj (Nat.not_lt_zero j)
        · intro hn
          simp only [gbScan, if_pos hc] at hn
          simp at hn
      · constructor
        · intro r hr
          simp only [gbScan, if_neg hc] at hr
          rw [gbScan_shift] at hr
          rcases hg : gbScan (first :: tl) first rest m 0 with _ | r'
          · rw [hg] at hr
            simp at hr
          · rw [hg] at hr
            simp only [Option.map_some'] at hr
            have hr' : r' + 1 = r := by simpa using hr
            obtain ⟨hpre, hlt, hmin⟩ := (ih m).1 r' hg
            subst hr'
            refine ⟨by simpa using hpre, by omega, ?_⟩
            intro j hj
            cases j with
            | zero =>
              simp only [List.drop_zero]
              intro hp
              exact hc ⟨(prefix_head_eq hp).symm, hp⟩
            | succ j' =>
              have := hmin j' (by omega)
              simpa using this
        · intro hn
          simp only [gbScan, if_neg hc] at hn
          rw [gbScan_shift] at hn
          rcases hg : gbScan (first :: tl) first rest m 0 with _ | r'
          · intro j hj
            cases j with
            | zero =>
              simp only [List.drop_zero]
              intro hp
              exact hc ⟨(prefix_head_eq hp).symm, hp⟩
            | succ j' =>
              have := (ih m).2 hg j' (by omega)
              simpa using this
          · rw [hg] at hn
            simp at hn

lemma getBoundary_some_facts (bnd buf : List Char) (p : Nat)
    (h : getBoundary bnd buf = some p) :
    bnd.isPrefixOf (buf.drop p) = true ∧ bnd.length ≤ buf.length ∧
    p + bnd.length ≤ buf.length := by
  cases bnd with
  | nil => simp [getBoundary] at h
  | cons first tl =>
    by_cases hlen : buf.length < (first :: tl).length
    · simp only [getBoundary, if_pos hlen] at h
      exact absurd h (by simp)
    · simp only [getBoundary, if_neg hlen] at h
      obtain ⟨hpre, -, -⟩ :=
        (gbScan_spec first tl buf (buf.length - (first :: tl).length + 1)).1 p h
      have hl := isPrefixOf_length_le _ _ hpre
      rw [List.length_drop] at hl
      have hc : (first :: tl).length = tl.length + 1 := by simp
      exact ⟨hpre, by omega, by omega⟩

/-- C3: `getBoundary` returns the leftmost occurrence of a non-empty marker
    in the window, and reports no match exactly when the window is shorter
    than the marker or contains no occurrence. -/
theorem c3_getBoundary_leftmost (bnd buf : List Char) (h : bnd ≠ []) :
    (∀ r, getBoundary bnd buf = some r →
      bnd.isPrefixOf (buf.drop r) = true ∧
      ∀ j < r, ¬ bnd.isPrefixOf (buf.drop j) = true) ∧
    (getBoundary bnd buf = none ↔
      buf.length < bnd.length ∨
      ∀ j, ¬ bnd.isPrefixOf (buf.drop j) = true) := by
  obtain ⟨first, tl, rfl⟩ : ∃ f t, bnd = f :: t := by
    cases bnd with
    | nil => exact absurd rfl h
    | cons f t => exact ⟨f, t, rfl⟩
  have hc : (first :: tl).length = tl.length + 1 := by simp
  by_cases hlen : buf.length < (first :: tl).length
  · constructor
    · intro r hr
      simp only [getBoundary, if_pos hlen] at hr
      exact absurd hr (by simp)
    · constructor
      · intro _
        exact Or.inl hlen
      · intro _
        simp only [getBoundary, if_pos hlen]
  · have hspec := gbScan_spec first tl buf (buf.length - (first :: tl).length + 1)
    constructor
    · intro r hr
      simp only [getBoundary, if_neg hlen] at hr
      obtain ⟨hpre, -, hmin⟩ := hspec.1 r hr
      exact ⟨hpre, hmin⟩
    · constructor
      · intro hn
        refine Or.inr fun j => ?_
        simp only [getBoundary, if_neg hlen] at hn
        by_cases hj : j < buf.length - (first :: tl).length + 1
        · exact hspec.2 hn j hj
        · intro hp
          have hl := isPrefixOf_length_le _ _ hp
          rw [List.length_drop] at hl
          omega
      · intro hall
        simp only [getBoundary, if_neg hlen]
        rcases hg : gbScan (first :: tl) first buf
            (buf.length - (first :: tl).length + 1) 0 with _ | r
        · rfl
        · obtain ⟨hpre, -, -⟩ := hspec.1 r hg
          rcases hall with hlt | hnone
          · omega
          · exact absurd hpre (hnone r)

/-- C3 witness: the marker `-X` occurs first at offset 1 of `a-Xb`. -/
theorem c3_getBoundary_leftmost_witness :
    "-X".data ≠ [] ∧
    ((∀ r, getBoundary "-X".data "a-Xb".data = some r →
      "-X".data.isPrefixOf ("a-Xb".data.drop r) = true ∧
      ∀ j < r, ¬ "-X".data.isPrefixOf ("a-Xb".data.drop j) = true) ∧
    (getBoundary "-X".data "a-Xb".data = none ↔
      "a-Xb".data.length < "-X".data.length ∨
      ∀ j, ¬ "-X".data.isPrefixOf ("a-Xb".data.drop j) = true)) :=
  ⟨by decide, c3_getBoundary_leftmost "-X".data "a-Xb".data (by decide)⟩

/-- C2 (amended): when the scanner finds no boundary in a window of at least
    `boundaryLen` bytes while a file part (filename context) is streaming,
    `processContentData` flushes all but the final `boundaryLen - 1` bytes to
    the file, holds those trailing bytes back, stays in the data state, and
    the driver loop suspends for more input. For a plain field the code
    instead consumes the whole window (see the counterexample). -/
theorem c2_holdback_file_parts (limit : Nat) (s : Webs) (f : UploadFile)
    (hst : s.uploadState = HTTP_UPLOAD_CONTENT_DATA)
    (hcf : s.clientFilename.isSome = true)
    (hfile : s.currentFile = some f)
    (herr : s.error = none)
    (hbnd : 1 ≤ s.boundary.length)
    (hsize : s.boundary.length ≤ s.input.length)
    (hnb : getBoundary s.boundary s.input = none)
    (hlim : f.size + (s.input.length - (s.boundary.length - 1)) ≤ limit) :
    (processContentData limit s).input =
      s.input.drop (s.input.length - (s.boundary.length - 1)) ∧
    (processContentData limit s).input.length = s.boundary.length - 1 ∧
    (processContentData limit s).uploadState = HTTP_UPLOAD_CONTENT_DATA ∧
    (processContentData limit s).error = none ∧
    (processContentData limit s).ufdData =
      s.ufdData ++ s.input.take (s.input.length - (s.boundary.length - 1)) ∧
    (stepWebs limit s).2 = false := by
  have hdl1 : 1 ≤ s.input.length - (s.boundary.length - 1) := by omega
  have htk : (s.input.take (s.input.length - (s.boundary.length - 1))).length =
      s.input.length - (s.boundary.length - 1) := by
    rw [List.length_take]
    omega
  have hw : writeToFile limit s
      (s.input.take (s.input.length - (s.boundary.length - 1))) =
      { s with
        currentFile := some
          { f with size := f.size + (s.input.length - (s.boundary.length - 1)) },
        ufdData := s.ufdData ++
          s.input.take (s.input.length - (s.boundary.length - 1)) } := by
    simp only [writeToFile, hfile, htk]
    rw [if_neg (by omega), if_pos (by omega)]
  have hmain : processContentData limit s =
      { s with
        currentFile := some
          { f with size := f.size + (s.input.length - (s.boundary.length - 1)) },
        ufdData := s.ufdData ++
          s.input.take (s.input.length - (s.boundary.length - 1)),
        input := s.input.drop (s.input.length - (s.boundary.length - 1)) } := by
    simp only [processContentData, hnb]
    rw [if_neg (by omega), if_pos hcf, if_pos (by omega : (0:Nat) <
      s.input.length - (s.boundary.length - 1)), hw]
    simp [herr]
  have hlen2 : (s.input.drop (s.input.length - (s.boundary.length - 1))).length =
      s.boundary.length - 1 := by
    rw [List.length_drop]
    omega
  refine ⟨by rw [hmain], by rw [hmain]; exact hlen2, by rw [hmain]; exact hst,
    by rw [hmain]; exact herr, by rw [hmain], ?_⟩
  have hne : ¬ (s.uploadState = HTTP_UPLOAD_BOUNDARY ∨
      s.uploadState = HTTP_UPLOAD_CONTENT_HEADER) := by
    rw [hst]
    decide
  simp only [stepWebs, if_neg hne, if_pos hst, hmain]
  simp only [herr]
  rw [if_neg (by simp), if_pos (by rw [hlen2]; omega : _)]

/-- C2 witness: streaming the file part of `exStreamState` with `abcdef`
    buffered and marker `--X` flushes 4 bytes and holds back 2. -/
theorem c2_holdback_file_parts_witness :
    getBoundary exStreamState.boundary exStreamState.input = none ∧
    ((processContentData 1000 exStreamState).input =
      exStreamState.input.drop
        (exStreamState.input.length - (exStreamState.boundary.length - 1)) ∧
    (processContentData 1000 exStreamState).input.length =
      exStreamState.boundary.length - 1 ∧
    (processContentData 1000 exStreamState).uploadState =
      HTTP_UPLOAD_CONTENT_DATA ∧
    (processContentData 1000 exStreamState).error = none ∧
    (processContentData 1000 exStreamState).ufdData =
      exStreamState.ufdData ++ exStreamState.input.take
        (exStreamState.input.length - (exStreamState.boundary.length - 1)) ∧
    (stepWebs 1000 exStreamState).2 = false) :=
  ⟨by decide,
    c2_holdback_file_parts 1000 exStreamState exFile (by decide) (by decide)
      (by decide) (by decide) (by decide) (by decide) (by decide) (by decide)⟩

/-- C2 counterexample: in the streaming state `exDataState` a plain field
    `a` is being decoded, the scanner finds no boundary in the 5-byte window
    `hello`, yet the state machine consumes the whole window (0 bytes held
    back instead of `boundaryLen - 1 = 2`) and leaves the streaming state —
    refuting the claim's "for every part being streamed". -/
theorem c2_plain_field_counterexample :
    exDataState.uploadState = HTTP_UPLOAD_CONTENT_DATA ∧
    exDataState.clientFilename = none ∧
    exDataState.boundary.length ≤ exDataState.input.length ∧
    getBoundary exDataState.boundary exDataState.input = none ∧
    exDataState.boundary.length - 1 = 2 ∧
    (processContentData 1000 exDataState).input.length = 0 ∧
    (processContentData 1000 exDataState).uploadState =
      HTTP_UPLOAD_BOUNDARY := by
  decide

lemma cdLoop_filename_without_name :
    ∀ (fuel : Nat) (key : List Char) (s : Webs),
      s.error = none → s.id = none →
      hasFilenameBeforeName fuel (some key) = true →
      (cdLoop s fuel (some key)).error = some HTTP_CODE_BAD_REQUEST ∧
      (cdLoop s fuel (some key)).tmpPath = s.tmpPath ∧
      (cdLoop s fuel (some key)).tmpCounter = s.tmpCounter ∧
      (cdLoop s fuel (some key)).ufdOpen = s.ufdOpen ∧
      (cdLoop s fuel (some key)).ufdData = s.ufdData ∧
      (cdLoop s fuel (some key)).disk = s.disk ∧
      (cdLoop s fuel (some key)).currentFile = s.currentFile := by
  intro fuel
  induction fuel with
  | zero =>
    intro key s _ _ hf
    simp [hasFilenameBeforeName] at hf
  | succ m ih =>
    intro key s herr hid hf
    rcases hg : gtokSplit [';', '\r', '\n'] key with _ | ⟨vis, nextPair⟩
    · simp [hasFilenameBeforeName, hg] at hf
    · simp only [hasFilenameBeforeName, hg] at hf
      simp only [cdLoop, hg]
      by_cases hfn : gcaselesscmp (attrParse vis).1 "filename".data = true
      · have hfd : ¬ gcaselesscmp (attrParse vis).1 "form-data".data = true :=
          gcaselesscmp_false_of_ne _ _ _ (by decide) hfn
        have hnm : ¬ gcaselesscmp (attrParse vis).1 "name".data = true :=
          gcaselesscmp_false_of_ne _ _ _ (by decide) hfn
        rw [if_neg hfd, if_neg hnm, if_pos hfn, if_pos hid]
        exact ⟨rfl, rfl, rfl, rfl, rfl, rfl, rfl⟩
      · by_cases hnm : gcaselesscmp (attrParse vis).1 "name".data = true
        · rw [if_neg hfn, if_pos hnm] at hf
          exact absurd hf (by simp)
        · rw [if_neg hfn, if_neg hnm] at hf
          rcases nextPair with _ | key'
          · simp [hasFilenameBeforeName] at hf
          · by_cases hfd : gcaselesscmp (attrParse vis).1 "form-data".data = true
            · rw [if_pos hfd]
              exact ih key' s herr hid hf
            · rw [if_neg hfd, if_neg hnm, if_neg hfn]
              exact ih key' s herr hid hf

/-- C5: a Content-Disposition line whose attribute list reaches a `filename`
    attribute with no `name` attribute seen earlier in that line fails with
    HTTP 400, and no temp path is generated, no temp file is opened or
    written, and no file record is allocated. -/
theorem c5_filename_without_name (s : Webs) (line : List Char)
    (herr : s.error = none)
    (hcd : gcaselesscmp (gtokSplit2 [':', ' '] line).1
      "Content-Disposition".data = true)
    (hfbn : hasFilenameBeforeName
      (((gtokSplit2 [':', ' '] line).2.getD []).length + 1)
      (gtokSplit2 [':', ' '] line).2 = true) :
    (processUploadHeader s line).error = some HTTP_CODE_BAD_REQUEST ∧
    (processUploadHeader s line).tmpPath = s.tmpPath ∧
    (processUploadHeader s line).tmpCounter = s.tmpCounter ∧
    (processUploadHeader s line).ufdOpen = s.ufdOpen ∧
    (processUploadHeader s line).ufdData = s.ufdData ∧
    (processUploadHeader s line).disk = s.disk ∧
    (processUploadHeader s line).currentFile = s.currentFile := by
  have hline : ¬ line = [] := by
    intro he
    rw [he] at hcd
    exact absurd hcd (by decide)
  rcases hrest : (gtokSplit2 [':', ' '] line).2 with _ | key
  · rw [hrest] at hfbn
    simp [hasFilenameBeforeName] at hfbn
  · rw [hrest] at hfbn
    simp only [Option.getD_some] at hfbn
    simp only [processUploadHeader, if_neg hline, if_pos hcd]
    rw [hrest]
    exact cdLoop_filename_without_name (key.length + 1) key
      { s with id := none, clientFilename := none } herr rfl hfbn

/-- C5 witness: the header line
    `Content-Disposition: form-data; filename="x"` fails with HTTP 400 and
    leaves the temp-file state of a fresh session untouched. -/
theorem c5_filename_without_name_witness :
    (processUploadHeader (initWebs exDir exBnd)
      "Content-Disposition: form-data; filename=\"x\"".data).error =
      some HTTP_CODE_BAD_REQUEST ∧
    (processUploadHeader (initWebs exDir exBnd)
      "Content-Disposition: form-data; filename=\"x\"".data).tmpPath =
      (initWebs exDir exBnd).tmpPath ∧
    (processUploadHeader (initWebs exDir exBnd)
      "Content-Disposition: form-data; filename=\"x\"".data).tmpCounter =
      (initWebs exDir exBnd).tmpCounter ∧
    (processUploadHeader (initWebs exDir exBnd)
      "Content-Disposition: form-data; filename=\"x\"".data).ufdOpen =
      (initWebs exDir exBnd).ufdOpen ∧
    (processUploadHeader (initWebs exDir exBnd)
      "Content-Disposition: form-data; filename=\"x\"".data).ufdData =
      (initWebs exDir exBnd).ufdData ∧
    (processUploadHeader (initWebs exDir exBnd)
      "Content-Disposition: form-data; filename=\"x\"".data).disk =
      (initWebs exDir exBnd).disk ∧
    (processUploadHeader (initWebs exDir exBnd)
      "Content-Disposition: form-data; filename=\"x\"".data).currentFile =
      (initWebs exDir exBnd).currentFile :=
  c5_filename_without_name (initWebs exDir exBnd)
    "Content-Disposition: form-data; filename=\"x\"".data
    (by decide) (by decide) (by decide)

lemma defineUploadVars_preserves (s : Webs) :
    (defineUploadVars s).currentFile = s.currentFile ∧
    (defineUploadVars s).error = s.error ∧
    (defineUploadVars s).uploadState = s.uploadState ∧
    (defineUploadVars s).ufdOpen = s.ufdOpen ∧
    (defineUploadVars s).clientFilename = s.clientFilename := by
  rcases h : s.currentFile with _ | f <;> simp [defineUploadVars, h]

lemma closePart_file (s : Webs) (h : s.clientFilename.isSome = true) :
    (closePart s).currentFile = s.currentFile ∧
    (closePart s).error = s.error ∧
    (closePart s).uploadState = HTTP_UPLOAD_BOUNDARY ∧
    (closePart s).clientFilename = none ∧
    (closePart s).ufdOpen = false := by
  simp [closePart, h]

/-- Single-window accounting of `processContentData`: when a fresh file
    part's body bytes and the terminating boundary are buffered together
    (`getBoundary` finds the marker at offset `p`), the recorded size is
    exactly `p` minus the trailing CRLF when present, the handle is closed
    and the machine returns to the boundary state. Deliveries that split the
    boundary across chunks escape this scope and break the accounting — see
    the split-boundary theorem below. -/
theorem processContentData_single_window_size (limit : Nat) (s : Webs) (f : UploadFile) (p : Nat)
    (hcf : s.clientFilename.isSome = true)
    (hfile : s.currentFile = some f)
    (hsize0 : f.size = 0)
    (herr : s.error = none)
    (hb : getBoundary s.boundary s.input = some p)
    (hlim : p ≤ limit) :
    ((processContentData limit s).currentFile.map UploadFile.size) =
      some (p - crlfAdj (s.input.take p)) ∧
    (processContentData limit s).ufdOpen = false ∧
    (processContentData limit s).clientFilename = none ∧
    (processContentData limit s).error = none ∧
    (processContentData limit s).uploadState = HTTP_UPLOAD_BOUNDARY := by
  obtain ⟨-, hble, hple⟩ := getBoundary_some_facts _ _ _ hb
  have hple' : p ≤ s.input.length := by omega
  have hdata_len : (s.input.take p).length = p := by
    rw [List.length_take]; omega
  have hca : crlfAdj (s.input.take p) ≤ p := by
    unfold crlfAdj
    split
    · next hcond =>
      rw [hdata_len] at hcond
      exact hcond.1
    · omega
  have hnn : ¬ s.input.length < s.boundary.length := by omega
  rcases Nat.eq_zero_or_pos p with hp0 | hp
  · subst hp0
    simp only [processContentData, hb, if_neg hnn, contentDataTail]
    rw [if_neg (by omega : ¬ (0:Nat) < 0)]
    obtain ⟨h1, h2, h3, h4, h5⟩ := closePart_file s hcf
    refine ⟨?_, h5, h4, by rw [h2]; exact herr, h3⟩
    rw [h1, hfile]
    simp [crlfAdj, hsize0]
  · simp only [processContentData, hb, if_neg hnn, contentDataTail]
    rw [if_pos hp, if_pos hcf]
    set W := writeToFile limit { s with input := s.input.drop p }
      ((s.input.take p).take (p - crlfAdj (s.input.take p))) with hWdef
    have hlen3 : ((s.input.take p).take (p - crlfAdj (s.input.take p))).length =
        p - crlfAdj (s.input.take p) := by
      rw [List.length_take, hdata_len]
      omega
    have hWfacts : W.error = none ∧ W.clientFilename = s.clientFilename ∧
        ∃ f2, W.currentFile = some f2 ∧
          f2.size = p - crlfAdj (s.input.take p) := by
      rw [hWdef]
      simp only [writeToFile, hfile, hlen3]
      rw [if_neg (by omega)]
      by_cases hdlpos : 0 < p - crlfAdj (s.input.take p)
      · rw [if_pos hdlpos]
        exact ⟨herr, rfl, ⟨_, rfl, by simp [hsize0]⟩⟩
      · rw [if_neg hdlpos]
        exact ⟨herr, rfl, ⟨f, rfl, by omega⟩⟩
    obtain ⟨hWerr, hWcf, f2, hWfile, hf2⟩ := hWfacts
    rw [if_neg (show ¬ W.error.isSome = true by rw [hWerr]; simp)]
    rw [hWfile]
    obtain ⟨hd1, hd2, hd3, hd4, hd5⟩ := defineUploadVars_preserves
      { W with currentFile := some f2,
               files := symEnter W.files (W.id.getD []) f2 }
    have hdcf : (defineUploadVars
        { W with currentFile := some f2,
                 files := symEnter W.files (W.id.getD []) f2 }).clientFilename.isSome = true := by
      rw [hd5]
      show W.clientFilename.isSome = true
      rw [hWcf]
      exact hcf
    obtain ⟨hc1, hc2, hc3, hc4, hc5⟩ := closePart_file _ hdcf
    refine ⟨?_, ?_, ?_, ?_, ?_⟩
    · simp only [hc1, hd1, Option.map_some', hf2]
    · simp only [hc5]
    · simp only [hc4]
    · simp only [hc2, hd2]
      exact hWerr
    · simp only [hc3]

/-- Instance of the single-window accounting: the part body `hi` followed by
    CRLF and `--X--` records size 2 = 4 bytes before the marker minus the
    CRLF. -/
theorem processContentData_single_window_size_instance :
    ((processContentData 1000 exFinishState).currentFile.map UploadFile.size) =
      some (4 - crlfAdj (exFinishState.input.take 4)) ∧
    (processContentData 1000 exFinishState).ufdOpen = false ∧
    (processContentData 1000 exFinishState).clientFilename = none ∧
    (processContentData 1000 exFinishState).error = none ∧
    (processContentData 1000 exFinishState).uploadState =
      HTTP_UPLOAD_BOUNDARY :=
  processContentData_single_window_size 1000 exFinishState exFile 4
    (by decide) (by decide) (by decide) (by decide) (by decide) (by decide)

/-- C7: the recorded-size accounting fails on a valid file body when the
    terminating boundary straddles a delivery split. Processed as one chunk,
    the part `f` of `exFileBody` records size 2 (payload `hi`, trailing CRLF
    stripped) and publishes `FILE_SIZE_f = "2"`. Delivered as two chunks
    split after `...hi\r\n--` (byte 99, inside the marker), the holdback of
    only `boundaryLen - 1` bytes flushes the CRLF into the temp file before
    the marker is visible (size 4, file contents `hi\r\n`), and the boundary
    is then found at window offset 0, so the publication block is skipped:
    the part completes cleanly (no error, handle closed, message Ended) with
    no `files` entry and no `FILE_SIZE_f` variable. -/
theorem c7_split_boundary_size :
    (runUpload 1000 exDir exBnd [exFileBody]).currentFile.map
      UploadFile.size = some 2 ∧
    lookupVar (runUpload 1000 exDir exBnd [exFileBody]).vars
      (fileSizeKey "f".data) = some "2".data ∧
    (runUpload 1000 exDir exBnd
      [exFileBody.take 99, exFileBody.drop 99]).error = none ∧
    (runUpload 1000 exDir exBnd
      [exFileBody.take 99, exFileBody.drop 99]).uploadState =
      HTTP_UPLOAD_CONTENT_END ∧
    (runUpload 1000 exDir exBnd
      [exFileBody.take 99, exFileBody.drop 99]).ufdOpen = false ∧
    (runUpload 1000 exDir exBnd
      [exFileBody.take 99, exFileBody.drop 99]).currentFile.map
      UploadFile.size = some 4 ∧
    (runUpload 1000 exDir exBnd
      [exFileBody.take 99, exFileBody.drop 99]).disk =
      [("tmp0".data, "hi\r\n".data)] ∧
    (runUpload 1000 exDir exBnd
      [exFileBody.take 99, exFileBody.drop 99]).files = [] ∧
    lookupVar (runUpload 1000 exDir exBnd
      [exFileBody.take 99, exFileBody.drop 99]).vars
      (fileSizeKey "f".data) = none := by
  decide

lemma openInv_writeToFile (limit : Nat) (s : Webs) (data : List Char)
    (h : s.ufdOpen = true → s.currentFile.isSome = true) :
    (writeToFile limit s data).ufdOpen = true →
    (writeToFile limit s data).currentFile.isSome = true := by
  rcases hf : s.currentFile with _ | f
  · simp only [writeToFile, hf]
    intro hu
    have hs := h hu
    rw [hf] at hs
    exact hs
  · simp only [writeToFile, hf]
    split_ifs <;> simp [hf]

lemma openInv_closePart (s : Webs)
    (h : s.ufdOpen = true → s.currentFile.isSome = true) :
    (closePart s).ufdOpen = true →
    (closePart s).currentFile.isSome = true := by
  by_cases hcf : s.clientFilename.isSome = true
  · simp [closePart, hcf]
  · simpa [closePart, hcf] using h

lemma openInv_defineUploadVars (s : Webs)
    (h : s.ufdOpen = true → s.currentFile.isSome = true) :
    (defineUploadVars s).ufdOpen = true →
    (defineUploadVars s).currentFile.isSome = true := by
  rcases hf : s.currentFile with _ | f
  · simpa [defineUploadVars, hf] using h
  · simp only [defineUploadVars, hf]
    intro _
    simp [hf]

lemma openInv_contentDataTail (limit : Nat) (s : Webs) (bp : Option Nat)
    (h : s.ufdOpen = true → s.currentFile.isSome = true) :
    (contentDataTail limit s bp).ufdOpen = true →
    (contentDataTail limit s bp).currentFile.isSome = true := by
  simp only [contentDataTail]
  split
  · split
    · split
      · exact openInv_writeToFile _ _ _ h
      · apply openInv_closePart
        apply openInv_defineUploadVars
        split
        · exact openInv_writeToFile _ _ _ h
        · exact openInv_writeToFile _ _ _ h
    · apply openInv_closePart
      exact h
  · apply openInv_closePart
    exact h

lemma openInv_processContentData (limit : Nat) (s : Webs)
    (h : s.ufdOpen = true → s.currentFile.isSome = true) :
    (processContentData limit s).ufdOpen = true →
    (processContentData limit s).currentFile.isSome = true := by
  simp only [processContentData]
  split
  · exact h
  · split
    · split
      · split <;> split <;>
          first
            | exact openInv_writeToFile _ _ _ h
            | exact h
      · exact openInv_contentDataTail _ _ _ h
    · exact openInv_contentDataTail _ _ _ h


lemma openInv_cdLoop :
    ∀ (fuel : Nat) (key : Option (List Char)) (s : Webs),
      (s.ufdOpen = true → s.currentFile.isSome = true) →
      ((cdLoop s fuel key).ufdOpen = true →
        (cdLoop s fuel key).currentFile.isSome = true) := by
  intro fuel
  induction fuel with
  | zero =>
    intro key s h
    cases key <;> simpa [cdLoop] using h
  | succ m ih =>
    intro key s h
    cases key with
    | none => simpa [cdLoop] using h
    | some k =>
      rcases hg : gtokSplit [';', '\r', '\n'] k with _ | ⟨vis, nextPair⟩
      · simpa [cdLoop, hg] using h
      · simp only [cdLoop, hg]
        split
        · exact ih nextPair s h
        · split
          · exact ih nextPair _ h
          · split
            · split
              · exact h
              · exact ih nextPair _ (fun _ => rfl)
            · exact ih nextPair s h

lemma openInv_processUploadHeader (s : Webs) (line : List Char)
    (h : s.ufdOpen = true → s.currentFile.isSome = true) :
    (processUploadHeader s line).ufdOpen = true →
    (processUploadHeader s line).currentFile.isSome = true := by
  simp only [processUploadHeader]
  split
  · exact h
  · split
    · exact openInv_cdLoop _ _ _ h
    · split
      · split
        · split
          · intro _
            rfl
          · exact h
        · exact h
      · exact h

lemma openInv_processContentBoundary (s : Webs) (line : List Char)
    (h : s.ufdOpen = true → s.currentFile.isSome = true) :
    (processContentBoundary s line).ufdOpen = true →
    (processContentBoundary s line).currentFile.isSome = true := by
  simp only [processContentBoundary]
  split
  · exact h
  · split
    · exact h
    · exact h

lemma openInv_stepWebs (limit : Nat) (s : Webs)
    (h : s.ufdOpen = true → s.currentFile.isSome = true) :
    (stepWebs limit s).1.ufdOpen = true →
    (stepWebs limit s).1.currentFile.isSome = true := by
  simp only [stepWebs]
  split
  · split
    · exact h
    · split
      · exact openInv_processContentBoundary _ _ h
      · exact openInv_processUploadHeader _ _ h
  · split
    · split
      · exact openInv_processContentData _ _ h
      · split
        · exact openInv_processContentData _ _ h
        · exact openInv_processContentData _ _ h
    · exact h

lemma openInv_loopUpload (limit : Nat) :
    ∀ (fuel : Nat) (s : Webs),
      (s.ufdOpen = true → s.currentFile.isSome = true) →
      ((loopUpload limit fuel s).ufdOpen = true →
        (loopUpload limit fuel s).currentFile.isSome = true) := by
  intro fuel
  induction fuel with
  | zero => intro s h; simpa [loopUpload] using h
  | succ m ih =>
    intro s h
    simp only [loopUpload]
    rcases hs : stepWebs limit s with ⟨s', b⟩
    cases b
    · have := openInv_stepWebs limit s h
      rw [hs] at this
      simpa using this
    · have := openInv_stepWebs limit s h
      rw [hs] at this
      exact ih s' (by simpa using this)

lemma openInv_runUpload (limit : Nat) (uploadDir bnd : List Char)
    (chunks : List (List Char)) :
    (runUpload limit uploadDir bnd chunks).ufdOpen = true →
    (runUpload limit uploadDir bnd chunks).currentFile.isSome = true := by
  unfold runUpload
  have hgen : ∀ (l : List (List Char)) (s : Webs),
      (s.ufdOpen = true → s.currentFile.isSome = true) →
      ((List.foldl (feed limit) s l).ufdOpen = true →
        (List.foldl (feed limit) s l).currentFile.isSome = true) := by
    intro l
    induction l with
    | nil => intro s h; simpa using h
    | cons c rest ih =>
      intro s h
      simp only [List.foldl_cons]
      apply ih
      simp only [feed]
      split
      · exact h
      · exact openInv_loopUpload limit _ _ h
  apply hgen
  intro hu
  simp [initWebs] at hu

/-- C9 (amended): in every reachable session state, an open temp-file handle
    implies `currentFile` is non-null. The converse direction of the original
    claim fails: after a file part completes and its handle is closed,
    `currentFile` keeps pointing at the completed record (see the
    counterexample). -/
theorem c9_open_implies_currentFile (limit : Nat) (uploadDir bnd : List Char)
    (chunks : List (List Char))
    (h : (runUpload limit uploadDir bnd chunks).ufdOpen = true) :
    (runUpload limit uploadDir bnd chunks).currentFile.isSome = true :=
  openInv_runUpload limit uploadDir bnd chunks h

/-- C9 witness: a session stopped in the middle of a file part's data has the
    handle open, and therefore `currentFile` set. -/
theorem c9_open_implies_currentFile_witness :
    (runUpload 1000 exDir exBnd [exOpenBody]).ufdOpen = true ∧
    (runUpload 1000 exDir exBnd [exOpenBody]).currentFile.isSome = true :=
  ⟨by decide,
    c9_open_implies_currentFile 1000 exDir exBnd [exOpenBody] (by decide)⟩

/-- C9 counterexample: after the file part of `exFileBody` completes without
    error, the temp handle is closed but `currentFile` still holds the
    completed record — refuting "currentFile is non-null iff the temporary
    file handle is open", and in particular "after a file part completes and
    its handle is closed, currentFile is null again". -/
theorem c9_currentFile_counterexample :
    (runUpload 1000 exDir exBnd [exFileBody]).error = none ∧
    (runUpload 1000 exDir exBnd [exFileBody]).uploadState =
      HTTP_UPLOAD_CONTENT_END ∧
    (runUpload 1000 exDir exBnd [exFileBody]).ufdOpen = false ∧
    (runUpload 1000 exDir exBnd [exFileBody]).currentFile.isSome = true := by
  decide

/-- C1: chunk-boundary invariance fails. Processing the valid body
    `exFormBody` as one chunk publishes the field `a` = `hello` and reaches
    the end state; delivering the same body split after byte 52 (between
    `hel` and `lo` of the field data) publishes `a` = `hel` and then fails
    with HTTP 400 on the following chunk, because plain-field data is flushed
    as soon as a window of at least `boundaryLen` bytes holds no boundary. -/
theorem c1_chunk_split_divergence :
    lookupVar (runUpload 1000 exDir exBnd [exFormBody]).vars "a".data =
      some "hello".data ∧
    (runUpload 1000 exDir exBnd [exFormBody]).error = none ∧
    (runUpload 1000 exDir exBnd [exFormBody]).uploadState =
      HTTP_UPLOAD_CONTENT_END ∧
    lookupVar (runUpload 1000 exDir exBnd
      [exFormBody.take 52, exFormBody.drop 52]).vars "a".data =
      some "hel".data ∧
    (runUpload 1000 exDir exBnd
      [exFormBody.take 52, exFormBody.drop 52]).error =
      some HTTP_CODE_BAD_REQUEST := by
  decide

end GoAheadUpload
